import Mathlib

/-!
Shallow embedding of the two-body orbital simulation core (src/script.js).

The physics core consists of:
  * a `Vector` value class (`add`, `sub`, `mult`, `mag`, `norm`, `fromAngle`);
  * module-level constants (`SIM_G`, `DT`, masses, radii, trail capacity, ...);
  * mutable session state `m1`, `m2`, `m2Trail`, `isPaused`, `kickArrowState`,
    modelled here as an explicit `SimState` record threaded through the
    operations;
  * `setupInitialConditions`, `applyKick` and `updatePhysics`, modelled as
    state transformers returning the new state together with a typed outcome
    for the branch taken (the JavaScript functions signal these branches by
    early `return` plus console logging / an alert).

Double-precision arithmetic is modelled over the real numbers.
Rendering, DOM wiring and the animation loop are out of scope.
-/

noncomputable section

open Classical

/-- The `Vector` class of the source: an immutable pair of reals. -/
structure Vec where
  x : ℝ
  y : ℝ

/-- `add(v) { return new Vector(this.x + v.x, this.y + v.y); }` -/
def Vec.add (v w : Vec) : Vec := ⟨v.x + w.x, v.y + w.y⟩

/-- `sub(v) { return new Vector(this.x - v.x, this.y - v.y); }` -/
def Vec.sub (v w : Vec) : Vec := ⟨v.x - w.x, v.y - w.y⟩

/-- `mult(scalar) { return new Vector(this.x * scalar, this.y * scalar); }` -/
def Vec.mult (v : Vec) (s : ℝ) : Vec := ⟨v.x * s, v.y * s⟩

/-- `mag() { return Math.sqrt(this.x * this.x + this.y * this.y); }` -/
def Vec.mag (v : Vec) : ℝ := Real.sqrt (v.x * v.x + v.y * v.y)

/-- `norm()`: zero vector when the magnitude is zero, otherwise the unit
vector obtained by dividing both components by the magnitude. -/
def Vec.norm (v : Vec) : Vec :=
  if v.mag = 0 then ⟨0, 0⟩ else ⟨v.x / v.mag, v.y / v.mag⟩

/-- `Vector.fromAngle(angleRad, magnitude)`. -/
def Vec.fromAngle (angleRad magnitude : ℝ) : Vec :=
  ⟨magnitude * Real.cos angleRad, magnitude * Real.sin angleRad⟩

/-- Dot product of two vectors (used to state perpendicularity; not part of
the source's `Vector` class). -/
def Vec.dot (v w : Vec) : ℝ := v.x * w.x + v.y * w.y

/-! Module-level constants of the source. -/

def SIM_G : ℝ := 3700
def DT : ℝ := 0.01
def M1_MASS : ℝ := 1000
def M2_MASS : ℝ := 1
def M1_RADIUS : ℝ := 20
def M2_RADIUS : ℝ := 5
def MAX_TRAIL_LENGTH : ℕ := 1000
def INITIAL_M2_DISTANCE : ℝ := 150
def KICK_ARROW_DURATION : ℝ := 1000
def canvasWidth : ℝ := 800
def canvasHeight : ℝ := 600

/-- One body: `{ mass, radius, pos, vel }` (the `color` field is purely a
rendering attribute and carries no simulation state). -/
structure Body where
  mass : ℝ
  radius : ℝ
  pos : Vec
  vel : Vec

/-- `kickArrowState = { active, dir, endTime }` (cosmetic kick indicator). -/
structure KickArrowState where
  active : Bool
  dir : Vec
  endTime : ℝ

/-- The module-level mutable simulation state: `m1`, `m2`, `m2Trail`,
`isPaused`, `kickArrowState`. -/
structure SimState where
  m1 : Body
  m2 : Body
  m2Trail : List Vec
  isPaused : Bool
  kickArrowState : KickArrowState

/-- Outcome of `setupInitialConditions`: the `rMag === 0` branch logs an
error, zeroes the velocity and pauses instead of producing an orbit. -/
inductive SetupOutcome where
  | Ok : SetupOutcome
  | DegenerateConfiguration : SetupOutcome
  deriving DecidableEq

/-- Outcome of one `updatePhysics` call: the two guard branches set
`isPaused = true` and return early (`Halt`); the success path performs the
gravity update and falls through (`Continue` with the new position). -/
inductive StepOutcome where
  | Continue : Vec → StepOutcome
  | Halt : StepOutcome

/-- Outcome of `applyKick`: the `isPaused` guard alerts and returns early
(`InvalidState`); otherwise the kick is applied. -/
inductive KickOutcome where
  | KickApplied : KickOutcome
  | InvalidState : KickOutcome
  deriving DecidableEq

/-- `setupInitialConditions`, with the module constant
`INITIAL_M2_DISTANCE` lifted to the parameter `d` so that the separation can
be quantified over (the source fixes `d = INITIAL_M2_DISTANCE = 150`; see
`setupDefault`).  Only the previous `kickArrowState` is read (its `active`
flag is cleared in place); everything else is rebuilt from scratch. -/
def setupInitialConditions (ka : KickArrowState) (d : ℝ) :
    SimState × SetupOutcome :=
  let m1 : Body :=
    { mass := M1_MASS, radius := M1_RADIUS
      pos := ⟨canvasWidth / 2, canvasHeight / 2⟩, vel := ⟨0, 0⟩ }
  let m2 : Body :=
    { mass := M2_MASS, radius := M2_RADIUS
      pos := ⟨m1.pos.x + d, m1.pos.y⟩, vel := ⟨0, 0⟩ }
  let rVec := m2.pos.sub m1.pos
  let rMag := rVec.mag
  if rMag = 0 then
    ({ m1 := m1, m2 := { m2 with vel := ⟨0, 0⟩ }, m2Trail := []
       isPaused := true, kickArrowState := { ka with active := false } },
     SetupOutcome.DegenerateConfiguration)
  else
    let orbitalSpeedScalar := Real.sqrt (SIM_G * m1.mass / rMag)
    ({ m1 := m1, m2 := { m2 with vel := ⟨0, -orbitalSpeedScalar⟩ }
       m2Trail := [], isPaused := false
       kickArrowState := { ka with active := false } },
     SetupOutcome.Ok)

/-- `setupInitialConditions` exactly as the source runs it, at the fixed
separation `INITIAL_M2_DISTANCE`. -/
def setupDefault (ka : KickArrowState) : SimState × SetupOutcome :=
  setupInitialConditions ka INITIAL_M2_DISTANCE

/-- The separation vector `forceVec = m1.pos.sub(m2.pos)` computed at the
top of `updatePhysics` (pointing from the secondary toward the primary). -/
def forceVec (s : SimState) : Vec := s.m1.pos.sub s.m2.pos

/-- `distSq = forceVec.mag() * forceVec.mag()` of `updatePhysics`. -/
def distSq (s : SimState) : ℝ := (forceVec s).mag * (forceVec s).mag

/-- The trail append of `updatePhysics`:
`m2Trail.push(p); if (m2Trail.length > MAX_TRAIL_LENGTH) m2Trail.shift();` -/
def trailPush (trail : List Vec) (p : Vec) : List Vec :=
  let t := trail ++ [p]
  if MAX_TRAIL_LENGTH < t.length then t.tail else t

/-- A whole sequence of trail pushes, oldest first. -/
def trailPushAll (init : List Vec) (ps : List Vec) : List Vec :=
  ps.foldl trailPush init

/-- `forceMag = (SIM_G * m1.mass * m2.mass) / distSq` (line 167), as a
function of the pre-step state. -/
def forceMag (s : SimState) : ℝ := SIM_G * s.m1.mass * s.m2.mass / distSq s

/-- `gravityForce = forceVec.norm().mult(forceMag)` (line 170). -/
def gravityForce (s : SimState) : Vec := (forceVec s).norm.mult (forceMag s)

/-- `accelerationM2 = gravityForce.mult(1 / m2.mass)` (line 171). -/
def accelerationM2 (s : SimState) : Vec := (gravityForce s).mult (1 / s.m2.mass)

/-- The updated velocity `m2.vel.add(accelerationM2.mult(DT))` (line 173). -/
def newVel (s : SimState) : Vec := s.m2.vel.add ((accelerationM2 s).mult DT)

/-- The updated position `m2.pos.add(m2.vel.mult(DT))` (line 174) — computed
from the already-updated velocity `newVel`. -/
def newPos (s : SimState) : Vec := s.m2.pos.add ((newVel s).mult DT)

/-- `updatePhysics`: guard on near-collision
(`distSq < (m1.radius + m2.radius)*(m1.radius + m2.radius) * 0.8`), guard on
`distSq === 0`, then the semi-implicit Euler gravity update followed by the
trail push. -/
def updatePhysics (s : SimState) : SimState × StepOutcome :=
  if distSq s <
      (s.m1.radius + s.m2.radius) * (s.m1.radius + s.m2.radius) * 0.8 then
    ({ s with isPaused := true }, StepOutcome.Halt)
  else if distSq s = 0 then
    ({ s with isPaused := true }, StepOutcome.Halt)
  else
    ({ s with m2 := { s.m2 with vel := newVel s, pos := newPos s }
              m2Trail := trailPush s.m2Trail (newPos s) },
     StepOutcome.Continue (newPos s))

/-- `applyKick(angleDegrees, magnitude)`; `now` stands for the `Date.now()`
reading used only for the cosmetic arrow expiry. -/
def applyKick (s : SimState) (angleDegrees magnitude now : ℝ) :
    SimState × KickOutcome :=
  if s.isPaused then (s, KickOutcome.InvalidState)
  else
    let kickAngleRad := angleDegrees * Real.pi / 180
    let kickDeltaV := Vec.fromAngle kickAngleRad magnitude
    ({ s with m2 := { s.m2 with vel := s.m2.vel.add kickDeltaV }
              m2Trail := []
              kickArrowState :=
                { active := true, dir := kickDeltaV.norm
                  endTime := now + KICK_ARROW_DURATION } },
     KickOutcome.KickApplied)

/-- The guard of the dedicated zero-distance branch of `updatePhysics`
actually fires: control reaches line 160 (so the collision guard on line 155
was false) and the `distSq === 0` test succeeds. -/
def zeroDistGuardReached (s : SimState) : Prop :=
  ¬ distSq s <
      (s.m1.radius + s.m2.radius) * (s.m1.radius + s.m2.radius) * 0.8
    ∧ distSq s = 0

/-- An inactive kick indicator, as left by `setupInitialConditions`. -/
def kaZero : KickArrowState := { active := false, dir := ⟨0, 0⟩, endTime := 0 }

/-- A session whose bodies are separated by the vector `(21, 3)`, so that
`distSq = 450` lies between `((r1+r2)*0.8)^2 = 400` and
`(r1+r2)*(r1+r2)*0.8 = 500` for the session radii `20` and `5`. -/
def s450 : SimState :=
  { m1 := { mass := M1_MASS, radius := M1_RADIUS, pos := ⟨421, 303⟩
            vel := ⟨0, 0⟩ }
    m2 := { mass := M2_MASS, radius := M2_RADIUS, pos := ⟨400, 300⟩
            vel := ⟨0, 0⟩ }
    m2Trail := [], isPaused := false, kickArrowState := kaZero }

/-- A running session at the source's initial geometry: the secondary sits
`150` units to the right of the primary. -/
def sFar : SimState :=
  { m1 := { mass := M1_MASS, radius := M1_RADIUS, pos := ⟨400, 300⟩
            vel := ⟨0, 0⟩ }
    m2 := { mass := M2_MASS, radius := M2_RADIUS, pos := ⟨550, 300⟩
            vel := ⟨0, -157⟩ }
    m2Trail := [], isPaused := false, kickArrowState := kaZero }

/-- A session whose two bodies occupy the same point. -/
def sZeroSep : SimState :=
  { m1 := { mass := M1_MASS, radius := M1_RADIUS, pos := ⟨400, 300⟩
            vel := ⟨0, 0⟩ }
    m2 := { mass := M2_MASS, radius := M2_RADIUS, pos := ⟨400, 300⟩
            vel := ⟨0, 0⟩ }
    m2Trail := [], isPaused := false, kickArrowState := kaZero }

end

/-! ### Basic facts about the embedded operations -/

lemma Vec.mag_nonneg (v : Vec) : 0 ≤ v.mag := Real.sqrt_nonneg _

lemma distSq_eq (s : SimState) :
    distSq s = (forceVec s).x * (forceVec s).x + (forceVec s).y * (forceVec s).y := by
  unfold distSq Vec.mag
  exact Real.mul_self_sqrt
    (add_nonneg (mul_self_nonneg _) (mul_self_nonneg _))

lemma distSq_eq_zero_iff (s : SimState) : distSq s = 0 ↔ (forceVec s).mag = 0 := by
  unfold distSq
  exact mul_self_eq_zero

lemma updatePhysics_halt_first (s : SimState)
    (h : distSq s <
      (s.m1.radius + s.m2.radius) * (s.m1.radius + s.m2.radius) * 0.8) :
    updatePhysics s = ({ s with isPaused := true }, StepOutcome.Halt) := by
  unfold updatePhysics
  rw [if_pos h]

lemma updatePhysics_halt_zero (s : SimState)
    (h1 : ¬ distSq s <
      (s.m1.radius + s.m2.radius) * (s.m1.radius + s.m2.radius) * 0.8)
    (h2 : distSq s = 0) :
    updatePhysics s = ({ s with isPaused := true }, StepOutcome.Halt) := by
  unfold updatePhysics
  rw [if_neg h1, if_pos h2]

lemma updatePhysics_continue (s : SimState)
    (h1 : ¬ distSq s <
      (s.m1.radius + s.m2.radius) * (s.m1.radius + s.m2.radius) * 0.8)
    (h2 : ¬ distSq s = 0) :
    updatePhysics s =
      ({ s with m2 := { s.m2 with vel := newVel s, pos := newPos s }
                m2Trail := trailPush s.m2Trail (newPos s) },
       StepOutcome.Continue (newPos s)) := by
  unfold updatePhysics
  rw [if_neg h1, if_neg h2]

/-! ### Trail buffer lemmas -/

lemma trailPushAll_nil (acc : List Vec) : trailPushAll acc [] = acc := rfl

lemma trailPushAll_cons (acc : List Vec) (p : Vec) (ps : List Vec) :
    trailPushAll acc (p :: ps) = trailPushAll (trailPush acc p) ps := rfl

lemma trailPushAll_eq (ps : List Vec) :
    ∀ acc : List Vec, acc.length ≤ MAX_TRAIL_LENGTH →
      trailPushAll acc ps =
        (acc ++ ps).drop ((acc ++ ps).length - MAX_TRAIL_LENGTH) := by
  induction ps with
  | nil =>
    intro acc h
    rw [trailPushAll_nil, List.append_nil, Nat.sub_eq_zero_of_le h,
      List.drop_zero]
  | cons p rest ih =>
    intro acc h
    rw [trailPushAll_cons]
    by_cases hlen : MAX_TRAIL_LENGTH < (acc ++ [p]).length
    · have hacc : acc.length = MAX_TRAIL_LENGTH := by
        simp only [List.length_append, List.length_singleton] at hlen
        omega
      have hTp : trailPush acc p = (acc ++ [p]).tail := by
        unfold trailPush
        rw [if_pos hlen]
      have htl : (acc ++ [p]).tail.length ≤ MAX_TRAIL_LENGTH := by
        simp only [List.length_tail, List.length_append, List.length_singleton]
        omega
      rw [hTp, ih _ htl]
      have e1 : (acc ++ [p]).tail ++ rest = (acc ++ p :: rest).drop 1 := by
        rw [List.append_cons acc p rest,
          List.drop_append_of_le_length (by simp), List.drop_one]
      rw [e1, List.drop_drop, List.length_drop]
      have e2 : 1 + ((acc ++ p :: rest).length - 1 - MAX_TRAIL_LENGTH) =
          (acc ++ p :: rest).length - MAX_TRAIL_LENGTH := by
        simp only [List.length_append, List.length_cons]
        omega
      rw [e2]
    · have hTp : trailPush acc p = acc ++ [p] := by
        unfold trailPush
        rw [if_neg hlen]
      have hle : (acc ++ [p]).length ≤ MAX_TRAIL_LENGTH := by omega
      rw [hTp, ih _ hle, List.append_cons acc p rest]

/-! ### Claim theorems -/

/-- C6: the trail buffer always has length at most `MAX_TRAIL_LENGTH = 1000`,
and after any sequence of `N + k` pushes (`k > 0`) starting from the empty
trail, its length equals `N` and its contents are exactly the last `N`
pushed points in their original insertion order. -/
theorem trail_bound_and_fifo (ps : List Vec) (k : ℕ) (hk : 0 < k)
    (hlen : ps.length = MAX_TRAIL_LENGTH + k) :
    (trailPushAll [] ps).length = MAX_TRAIL_LENGTH
    ∧ trailPushAll [] ps = ps.drop k
    ∧ ∀ qs : List Vec, (trailPushAll [] qs).length ≤ MAX_TRAIL_LENGTH := by
  have base := trailPushAll_eq ps [] (by simp)
  rw [List.nil_append] at base
  refine ⟨?_, ?_, ?_⟩
  · rw [base, List.length_drop, hlen]
    omega
  · rw [base, hlen]
    have : MAX_TRAIL_LENGTH + k - MAX_TRAIL_LENGTH = k := by omega
    rw [this]
  · intro qs
    have hq := trailPushAll_eq qs [] (by simp)
    rw [List.nil_append] at hq
    rw [hq, List.length_drop]
    omega

/-- Witness for C6 at a concrete sequence of `1000 + 1` pushes. -/
theorem trail_bound_and_fifo_witness :
    0 < 1
    ∧ (List.replicate (MAX_TRAIL_LENGTH + 1) (⟨0, 0⟩ : Vec)).length =
        MAX_TRAIL_LENGTH + 1
    ∧ ((trailPushAll [] (List.replicate (MAX_TRAIL_LENGTH + 1)
          (⟨0, 0⟩ : Vec))).length = MAX_TRAIL_LENGTH
        ∧ trailPushAll [] (List.replicate (MAX_TRAIL_LENGTH + 1)
            (⟨0, 0⟩ : Vec)) =
          (List.replicate (MAX_TRAIL_LENGTH + 1) (⟨0, 0⟩ : Vec)).drop 1
        ∧ ∀ qs : List Vec,
            (trailPushAll [] qs).length ≤ MAX_TRAIL_LENGTH) :=
  ⟨by decide, by rw [List.length_replicate],
    trail_bound_and_fifo _ 1 (by decide) (by rw [List.length_replicate])⟩

/-- C9: one `updatePhysics` call never changes the primary body — its mass,
radius, position and velocity are all as before, on both the `Halt` and the
`Continue` branches. -/
theorem step_preserves_primary (s : SimState) :
    (updatePhysics s).1.m1 = s.m1 := by
  unfold updatePhysics
  split
  · rfl
  · split
    · rfl
    · rfl

/-- C7: `applyKick` on a paused session fails with `InvalidState` and
returns the state entirely unchanged (velocity, trail and pause flag
included). -/
theorem kick_paused_invalid (s : SimState) (a m now : ℝ)
    (h : s.isPaused = true) :
    applyKick s a m now = (s, KickOutcome.InvalidState) := by
  unfold applyKick
  rw [if_pos h]

/-- Witness for C7 at a concrete paused session. -/
theorem kick_paused_invalid_witness :
    ({ sFar with isPaused := true } : SimState).isPaused = true
    ∧ applyKick { sFar with isPaused := true } 30 5 0 =
        ({ sFar with isPaused := true }, KickOutcome.InvalidState) :=
  ⟨rfl, kick_paused_invalid { sFar with isPaused := true } 30 5 0 rfl⟩

/-- C8: `applyKick` on a running session adds exactly the polar delta-v
`(magnitude * cos(angle * π / 180), magnitude * sin(angle * π / 180))` to the
secondary's velocity (no clamping), empties the trail, stays running, and
reports `KickApplied`. -/
theorem kick_running_applies (s : SimState) (a m now : ℝ)
    (h : s.isPaused = false) :
    (applyKick s a m now).1.m2.vel =
      s.m2.vel.add
        ⟨m * Real.cos (a * Real.pi / 180), m * Real.sin (a * Real.pi / 180)⟩
    ∧ (applyKick s a m now).1.m2Trail = []
    ∧ (applyKick s a m now).1.isPaused = false
    ∧ (applyKick s a m now).2 = KickOutcome.KickApplied := by
  unfold applyKick
  rw [if_neg (by rw [h]; exact Bool.false_ne_true)]
  exact ⟨rfl, rfl, h, rfl⟩

/-- Witness for C8 at a concrete running session. -/
theorem kick_running_applies_witness :
    sFar.isPaused = false
    ∧ ((applyKick sFar 30 5 0).1.m2.vel =
        sFar.m2.vel.add
          ⟨5 * Real.cos (30 * Real.pi / 180), 5 * Real.sin (30 * Real.pi / 180)⟩
      ∧ (applyKick sFar 30 5 0).1.m2Trail = []
      ∧ (applyKick sFar 30 5 0).1.isPaused = false
      ∧ (applyKick sFar 30 5 0).2 = KickOutcome.KickApplied) :=
  ⟨rfl, kick_running_applies sFar 30 5 0 rfl⟩

/-- C10: the dedicated `distSq === 0` branch of `updatePhysics` is
unreachable whenever both radii are positive: zero squared separation
already satisfies the near-collision comparison, so the first guard fires
first. -/
theorem zero_dist_branch_unreachable (s : SimState)
    (h1 : 0 < s.m1.radius) (h2 : 0 < s.m2.radius) :
    ¬ zeroDistGuardReached s := by
  rintro ⟨hnot, hz⟩
  apply hnot
  rw [hz]
  have hsum : 0 < s.m1.radius + s.m2.radius := by linarith
  nlinarith

/-- Witness for C10 at a concrete session with the source's radii. -/
theorem zero_dist_branch_unreachable_witness :
    0 < sFar.m1.radius ∧ 0 < sFar.m2.radius ∧ ¬ zeroDistGuardReached sFar :=
  ⟨by norm_num [sFar, M1_RADIUS], by norm_num [sFar, M2_RADIUS],
    zero_dist_branch_unreachable sFar (by norm_num [sFar, M1_RADIUS])
      (by norm_num [sFar, M2_RADIUS])⟩

/-! ### Separation computations at the concrete sessions -/

lemma forceVec_s450 : forceVec s450 = ⟨21, 3⟩ := by
  simp only [forceVec, s450, Vec.sub, Vec.mk.injEq]
  norm_num

lemma distSq_s450 : distSq s450 = 450 := by
  rw [distSq_eq, forceVec_s450]
  norm_num

lemma forceVec_sFar : forceVec sFar = ⟨-150, 0⟩ := by
  simp only [forceVec, sFar, Vec.sub, Vec.mk.injEq]
  norm_num

lemma distSq_sFar : distSq sFar = 22500 := by
  rw [distSq_eq, forceVec_sFar]
  norm_num

lemma mag_sZeroSep : (forceVec sZeroSep).mag = 0 := by
  simp [forceVec, sZeroSep, Vec.sub, Vec.mag]

/-- C1 is false as stated: at separation vector `(21, 3)` the squared
separation is `450`, which is not below the claimed threshold
`((r1+r2)*0.8)^2 = 400` and the separation is nonzero, yet `updatePhysics`
halts (the code compares against `(r1+r2)*(r1+r2)*0.8 = 500`). -/
theorem step_halt_threshold_counterexample :
    (updatePhysics s450).2 = StepOutcome.Halt
    ∧ ¬ (distSq s450 <
          ((s450.m1.radius + s450.m2.radius) * 0.8) ^ 2
        ∨ (forceVec s450).mag = 0) := by
  constructor
  · have h : distSq s450 <
        (s450.m1.radius + s450.m2.radius) * (s450.m1.radius + s450.m2.radius)
          * 0.8 := by
      rw [distSq_s450]
      norm_num [s450, M1_RADIUS, M2_RADIUS]
    rw [updatePhysics_halt_first s450 h]
  · rintro (h | h)
    · rw [distSq_s450] at h
      norm_num [s450, M1_RADIUS, M2_RADIUS] at h
    · have := (distSq_eq_zero_iff s450).mpr h
      rw [distSq_s450] at this
      norm_num at this

/-- C1 (amended): `step` returns `Halt` (and advances nothing) exactly when
the squared separation is below `(r1+r2)*(r1+r2)*0.8` — the slack factor
`0.8` multiplies the squared radius sum, not the radius sum before squaring
— or the separation is zero; otherwise it performs the gravity update and
returns `Continue` with the new position. -/
theorem step_halt_iff (s : SimState) :
    ((updatePhysics s).2 = StepOutcome.Halt ↔
      distSq s <
          (s.m1.radius + s.m2.radius) * (s.m1.radius + s.m2.radius) * 0.8
        ∨ (forceVec s).mag = 0)
    ∧ ((updatePhysics s).2 = StepOutcome.Halt →
        (updatePhysics s).1 = { s with isPaused := true })
    ∧ ((updatePhysics s).2 ≠ StepOutcome.Halt →
        updatePhysics s =
          ({ s with m2 := { s.m2 with vel := newVel s, pos := newPos s }
                    m2Trail := trailPush s.m2Trail (newPos s) },
           StepOutcome.Continue (newPos s))) := by
  by_cases h1 : distSq s <
      (s.m1.radius + s.m2.radius) * (s.m1.radius + s.m2.radius) * 0.8
  · rw [updatePhysics_halt_first s h1]
    exact ⟨⟨fun _ => Or.inl h1, fun _ => rfl⟩, fun _ => rfl,
      fun hne => absurd rfl hne⟩
  · by_cases h2 : distSq s = 0
    · rw [updatePhysics_halt_zero s h1 h2]
      exact ⟨⟨fun _ => Or.inr ((distSq_eq_zero_iff s).mp h2), fun _ => rfl⟩,
        fun _ => rfl, fun hne => absurd rfl hne⟩
    · rw [updatePhysics_continue s h1 h2]
      refine ⟨⟨fun hh => absurd hh (by simp), fun hor => ?_⟩,
        fun hh => absurd hh (by simp), fun _ => rfl⟩
      rcases hor with h | h
      · exact absurd h h1
      · exact absurd ((distSq_eq_zero_iff s).mpr h) h2

/-- C2: stepping a session whose bodies lie within distance `0.8*(r1+r2)`
of each other yields `Halt`, pauses the session, and mutates nothing else
(the secondary's position and velocity are exactly as before the call). -/
theorem step_halts_when_within_collision_distance (s : SimState)
    (h : (forceVec s).mag ≤ 0.8 * (s.m1.radius + s.m2.radius)) :
    (updatePhysics s).2 = StepOutcome.Halt
    ∧ (updatePhysics s).1 = { s with isPaused := true } := by
  have hm0 : 0 ≤ (forceVec s).mag := Vec.mag_nonneg _
  rcases eq_or_lt_of_le hm0 with heq | hpos
  · have hz : distSq s = 0 := by
      unfold distSq
      rw [← heq]
      ring
    by_cases h1 : distSq s <
        (s.m1.radius + s.m2.radius) * (s.m1.radius + s.m2.radius) * 0.8
    · rw [updatePhysics_halt_first s h1]
      exact ⟨rfl, rfl⟩
    · rw [updatePhysics_halt_zero s h1 hz]
      exact ⟨rfl, rfl⟩
  · have hR : 0 < s.m1.radius + s.m2.radius := by
      have : (0:ℝ) < 0.8 * (s.m1.radius + s.m2.radius) := lt_of_lt_of_le hpos h
      linarith
    have hsq : (forceVec s).mag * (forceVec s).mag ≤
        (0.8 * (s.m1.radius + s.m2.radius)) *
          (0.8 * (s.m1.radius + s.m2.radius)) :=
      mul_le_mul h h hm0 (by linarith)
    have h1 : distSq s <
        (s.m1.radius + s.m2.radius) * (s.m1.radius + s.m2.radius) * 0.8 := by
      unfold distSq
      nlinarith [mul_pos hR hR]
    rw [updatePhysics_halt_first s h1]
    exact ⟨rfl, rfl⟩

/-- Witness for C2 at a session whose bodies coincide. -/
theorem step_halts_when_within_collision_distance_witness :
    (forceVec sZeroSep).mag ≤
        0.8 * (sZeroSep.m1.radius + sZeroSep.m2.radius)
    ∧ ((updatePhysics sZeroSep).2 = StepOutcome.Halt
      ∧ (updatePhysics sZeroSep).1 = { sZeroSep with isPaused := true }) := by
  have h : (forceVec sZeroSep).mag ≤
      0.8 * (sZeroSep.m1.radius + sZeroSep.m2.radius) := by
    rw [mag_sZeroSep]
    norm_num [sZeroSep, M1_RADIUS, M2_RADIUS]
  exact ⟨h, step_halts_when_within_collision_distance sZeroSep h⟩

/-- C3: on every non-halting step the update is semi-implicit Euler in this
order: the new velocity is the old velocity plus
`(SIM_G * m1.mass / distSq) * normalize(forceVec) * DT` (the secondary's
mass cancels), and the new position is the old position plus the already
updated velocity times `DT`. -/
theorem step_semi_implicit_euler (s : SimState) (hm : s.m2.mass ≠ 0)
    (h : (updatePhysics s).2 ≠ StepOutcome.Halt) :
    (updatePhysics s).1.m2.vel =
      s.m2.vel.add
        (((forceVec s).norm.mult (SIM_G * s.m1.mass / distSq s)).mult DT)
    ∧ (updatePhysics s).1.m2.pos =
      s.m2.pos.add (((updatePhysics s).1.m2.vel).mult DT) := by
  have h1 : ¬ distSq s <
      (s.m1.radius + s.m2.radius) * (s.m1.radius + s.m2.radius) * 0.8 := by
    intro hlt
    exact h (by rw [updatePhysics_halt_first s hlt])
  have h2 : ¬ distSq s = 0 := by
    intro hz
    exact h (by rw [updatePhysics_halt_zero s h1 hz])
  rw [updatePhysics_continue s h1 h2]
  constructor
  · show newVel s = _
    unfold newVel accelerationM2 gravityForce forceMag
    simp only [Vec.add, Vec.mult, Vec.mk.injEq]
    constructor
    · field_simp
      ring
    · field_simp
      ring
  · rfl

/-- Witness for C3 at the initial orbital geometry. -/
theorem step_semi_implicit_euler_witness :
    sFar.m2.mass ≠ 0
    ∧ (updatePhysics sFar).2 ≠ StepOutcome.Halt
    ∧ ((updatePhysics sFar).1.m2.vel =
        sFar.m2.vel.add
          (((forceVec sFar).norm.mult
            (SIM_G * sFar.m1.mass / distSq sFar)).mult DT)
      ∧ (updatePhysics sFar).1.m2.pos =
        sFar.m2.pos.add (((updatePhysics sFar).1.m2.vel).mult DT)) := by
  have hm : sFar.m2.mass ≠ 0 := by norm_num [sFar, M2_MASS]
  have h1 : ¬ distSq sFar <
      (sFar.m1.radius + sFar.m2.radius) * (sFar.m1.radius + sFar.m2.radius)
        * 0.8 := by
    rw [distSq_sFar]
    norm_num [sFar, M1_RADIUS, M2_RADIUS]
  have h2 : ¬ distSq sFar = 0 := by
    rw [distSq_sFar]
    norm_num
  have hne : (updatePhysics sFar).2 ≠ StepOutcome.Halt := by
    rw [updatePhysics_continue sFar h1 h2]
    intro hh
    exact StepOutcome.noConfusion hh
  exact ⟨hm, hne, step_semi_implicit_euler sFar hm hne⟩

/-- Evaluation of `setupInitialConditions` at a positive separation: the
`rMag === 0` guard does not fire and the secondary receives the tangential
circular-orbit velocity `(0, -sqrt(SIM_G * M1_MASS / d))`. -/
lemma setup_eval_pos (ka : KickArrowState) (d : ℝ) (hd : 0 < d) :
    setupInitialConditions ka d =
      ({ m1 := { mass := M1_MASS, radius := M1_RADIUS
                 pos := ⟨canvasWidth / 2, canvasHeight / 2⟩, vel := ⟨0, 0⟩ }
         m2 := { mass := M2_MASS, radius := M2_RADIUS
                 pos := ⟨canvasWidth / 2 + d, canvasHeight / 2⟩
                 vel := ⟨0, -Real.sqrt (SIM_G * M1_MASS / d)⟩ }
         m2Trail := [], isPaused := false
         kickArrowState := { ka with active := false } },
       SetupOutcome.Ok) := by
  have hsub : Vec.sub ⟨canvasWidth / 2 + d, canvasHeight / 2⟩
      ⟨canvasWidth / 2, canvasHeight / 2⟩ = ⟨d, 0⟩ := by
    simp only [Vec.sub, Vec.mk.injEq]
    constructor <;> ring
  have hmag : (⟨d, 0⟩ : Vec).mag = d := by
    unfold Vec.mag
    rw [show d * d + (0:ℝ) * 0 = d * d by ring, Real.sqrt_mul_self hd.le]
  simp only [setupInitialConditions, hsub, hmag]
  rw [if_neg hd.ne']

/-- C4: at any positive separation `d`, initialization places the primary
at the fixed reference point (the canvas center) with zero velocity and
gives the secondary a velocity of magnitude
`sqrt(SIM_G * primaryMass / d)` perpendicular to the separation vector. -/
theorem setup_circular_orbit (ka : KickArrowState) (d : ℝ) (hd : 0 < d) :
    (setupInitialConditions ka d).1.m1.pos =
        ⟨canvasWidth / 2, canvasHeight / 2⟩
    ∧ (setupInitialConditions ka d).1.m1.vel = ⟨0, 0⟩
    ∧ (setupInitialConditions ka d).1.m2.vel.mag =
        Real.sqrt (SIM_G * (setupInitialConditions ka d).1.m1.mass / d)
    ∧ ((setupInitialConditions ka d).1.m2.pos.sub
          (setupInitialConditions ka d).1.m1.pos).dot
        (setupInitialConditions ka d).1.m2.vel = 0 := by
  rw [setup_eval_pos ka d hd]
  refine ⟨rfl, rfl, ?_, ?_⟩
  · show (⟨0, -Real.sqrt (SIM_G * M1_MASS / d)⟩ : Vec).mag =
      Real.sqrt (SIM_G * M1_MASS / d)
    unfold Vec.mag
    have h0 : (0:ℝ) ≤ Real.sqrt (SIM_G * M1_MASS / d) := Real.sqrt_nonneg _
    rw [show (0:ℝ) * 0 +
          -Real.sqrt (SIM_G * M1_MASS / d) * -Real.sqrt (SIM_G * M1_MASS / d)
        = Real.sqrt (SIM_G * M1_MASS / d) * Real.sqrt (SIM_G * M1_MASS / d)
      by ring]
    rw [Real.sqrt_mul_self h0]
  · show (Vec.sub ⟨canvasWidth / 2 + d, canvasHeight / 2⟩
        ⟨canvasWidth / 2, canvasHeight / 2⟩).dot
        ⟨0, -Real.sqrt (SIM_G * M1_MASS / d)⟩ = 0
    unfold Vec.dot Vec.sub
    ring

/-- Witness for C4 at the source's separation `150`. -/
theorem setup_circular_orbit_witness :
    (0:ℝ) < 150
    ∧ ((setupInitialConditions kaZero 150).1.m1.pos =
          ⟨canvasWidth / 2, canvasHeight / 2⟩
      ∧ (setupInitialConditions kaZero 150).1.m1.vel = ⟨0, 0⟩
      ∧ (setupInitialConditions kaZero 150).1.m2.vel.mag =
          Real.sqrt (SIM_G * (setupInitialConditions kaZero 150).1.m1.mass / 150)
      ∧ ((setupInitialConditions kaZero 150).1.m2.pos.sub
            (setupInitialConditions kaZero 150).1.m1.pos).dot
          (setupInitialConditions kaZero 150).1.m2.vel = 0) :=
  ⟨by norm_num, setup_circular_orbit kaZero 150 (by norm_num)⟩

/-- C5: initialization at separation `0` takes the degenerate branch: the
session starts paused, the secondary's velocity is left zero, and the two
bodies still coincide (no separation is invented). -/
theorem setup_zero_separation (ka : KickArrowState) :
    (setupInitialConditions ka 0).2 = SetupOutcome.DegenerateConfiguration
    ∧ (setupInitialConditions ka 0).1.isPaused = true
    ∧ (setupInitialConditions ka 0).1.m2.vel = ⟨0, 0⟩
    ∧ (setupInitialConditions ka 0).1.m2.pos =
        (setupInitialConditions ka 0).1.m1.pos := by
  have hsub : Vec.sub ⟨canvasWidth / 2 + 0, canvasHeight / 2⟩
      ⟨canvasWidth / 2, canvasHeight / 2⟩ = ⟨0, 0⟩ := by
    simp only [Vec.sub, Vec.mk.injEq]
    constructor <;> ring
  have hmag : (⟨0, 0⟩ : Vec).mag = 0 := by
    unfold Vec.mag
    rw [show (0:ℝ) * 0 + 0 * 0 = 0 by ring, Real.sqrt_zero]
  simp only [setupInitialConditions, hsub, hmag]
  rw [if_pos trivial]
  refine ⟨rfl, rfl, rfl, ?_⟩
  show (⟨canvasWidth / 2 + 0, canvasHeight / 2⟩ : Vec) =
    ⟨canvasWidth / 2, canvasHeight / 2⟩
  simp only [Vec.mk.injEq]
  exact ⟨by ring, trivial⟩
